import Mathlib

/-!
Verification development for the lab-results extraction pipeline
(`initial_pdf_processing.py` and `labcorp_pdf_processing.py`).

The Python sources are shallowly embedded below.  Conventions:

* Python strings are Lean `String`s; most character-level work happens on
  `String.data : List Char` with hand-rolled structural helpers so that every
  definition evaluates by kernel reduction.
* Python exceptions are modelled by `Option`: a code path that raises inside a
  `try`/`except` block returns `none` and the caller maps it to the behaviour
  of the `except` branch.
* Python floats built by `float(...)` from decimal literals are modelled as
  exact decimal numbers `PyNum` (numerator over a power of ten); comparisons
  are exact cross-multiplications, which agrees with IEEE comparison on all
  inputs whose decimal literals are distinguishable at double precision.
* `pandas` missing cells (NaN, produced by `pd.concat` when a worksheet lacks
  a column) are modelled as `none : Option String`; a present cell `s` is
  `some s`.  `NaN != ""` is true in Python, which the embedding mirrors.
-/

/-! ## Character and list utilities (models of Python `str` operations) -/

/-- Python whitespace (`str.strip` default / regex `\s`), ASCII portion. -/
def pyWS (c : Char) : Bool :=
  c == ' ' || c == '\t' || c == '\n' || c == '\r' || c == '\x0b' || c == '\x0c'

/-- Is the first list a leading segment of the second (used for
`str.startswith` and substring search)? -/
def listPre : List Char → List Char → Bool
  | [], _ => true
  | _ :: _, [] => false
  | a :: as, b :: bs => a == b && listPre as bs

/-- Substring test, Python `needle in hay`. -/
def hasSub (needle : List Char) : List Char → Bool
  | [] => listPre needle []
  | c :: cs => listPre needle (c :: cs) || hasSub needle cs

/-- Split on every occurrence of a separator character: Python
`str.split(sep)` for a one-character separator, also `re.split(r'[-]', s)`. -/
def splitCh (sep : Char) : List Char → List (List Char)
  | [] => [[]]
  | c :: cs =>
    if c == sep then [] :: splitCh sep cs
    else
      match splitCh sep cs with
      | p :: ps => (c :: p) :: ps
      | [] => [[c]]

/-- Python `str.strip()`. -/
def trimL (cs : List Char) : List Char :=
  ((cs.dropWhile pyWS).reverse.dropWhile pyWS).reverse

/-- Python `str.lower()` (ASCII). -/
def toLowerS (s : String) : String := String.mk (s.data.map Char.toLower)

/-- Python `str.upper()` (ASCII). -/
def toUpperS (s : String) : String := String.mk (s.data.map Char.toUpper)

/-- Python `s.startswith(p)`. -/
def startsW (p s : String) : Bool := listPre p.data s.data

/-- Python `any(c.isdigit() for c in line)` / `re.search(r"\d", s)`. -/
def hasDig (cs : List Char) : Bool := cs.any Char.isDigit

/-- Python `needle in hay` on strings. -/
def substrS (needle hay : String) : Bool := hasSub needle.data hay.data

/-- First-occurrence deduplication worker. -/
def dedupAux : List String → List String → List String
  | [], _ => []
  | x :: xs, seen => if x ∈ seen then dedupAux xs seen else x :: dedupAux xs (x :: seen)

/-- Deduplicate keeping first occurrences (model of building a Python `set`
followed by a canonical `sorted` listing; order before sorting is irrelevant). -/
def dedupL (xs : List String) : List String := dedupAux xs []

/-- Code-point lexicographic `≤` on char lists, Python string comparison. -/
def chLe : List Char → List Char → Bool
  | [], _ => true
  | _ :: _, [] => false
  | a :: as, b :: bs => if a == b then chLe as bs else decide (a.val < b.val)

/-! ## The `Mon D, YYYY` date regex

Model of `re.compile(r"((?:Jan|...|Dec)\s+\d{1,2},\s+\d{4})")` used by both
extractors.  Python's backtracking on `\d{1,2}` followed by a literal comma
succeeds exactly when the maximal digit run after the month has length 1 or 2
and is followed by a comma, which the model implements directly. -/

def monthsL : List (List Char) :=
  ["Jan", "Feb", "Mar", "Apr", "May", "Jun",
   "Jul", "Aug", "Sep", "Oct", "Nov", "Dec"].map String.data

/-- Try to match the date pattern anchored at the start of `cs`; return the
matched text (`m.group(1)`). -/
def dateMatchAt (cs : List Char) : Option (List Char) :=
  match monthsL.find? (fun m => listPre m cs) with
  | none => none
  | some m =>
    let r1 := cs.drop 3
    let w1 := r1.takeWhile pyWS
    if w1.isEmpty then none
    else
      let r2 := r1.drop w1.length
      let drun := r2.takeWhile Char.isDigit
      if drun.length = 1 ∨ drun.length = 2 then
        match r2.drop drun.length with
        | ',' :: r3 =>
          let w2 := r3.takeWhile pyWS
          if w2.isEmpty then none
          else
            let r4 := r3.drop w2.length
            let y := r4.take 4
            if y.length = 4 ∧ y.all Char.isDigit then
              some (m ++ w1 ++ drun ++ ',' :: w2 ++ y)
            else none
        | _ => none
      else none

/-- Leftmost match of the date pattern anywhere in `cs`: `pattern.search(s)`,
returning the matched text. -/
def dateFindL : List Char → Option (List Char)
  | [] => none
  | c :: cs =>
    match dateMatchAt (c :: cs) with
    | some s => some s
    | none => dateFindL cs

/-- Boolean `date_pattern.search(line)` on a line. -/
def dateSearchS (l : String) : Bool := (dateFindL l.data).isSome

/-! ## Range Evaluator (`is_out_of_range`, labcorp_pdf_processing.py 111-135) -/

/-- Exact decimal number: `num / den` with `den` a power of ten.  Model of the
Python float produced by `float(tok)` for `tok` a match of `[0-9.]+`. -/
structure PyNum where
  num : Nat
  den : Nat
deriving DecidableEq

/-- Exact `<` on decimal numbers (cross multiplication). -/
def numLt (a b : PyNum) : Bool := decide (a.num * b.den < b.num * a.den)

/-- Exact `≤` on decimal numbers (cross multiplication). -/
def numLe (a b : PyNum) : Bool := decide (a.num * b.den ≤ b.num * a.den)

/-- A character of the class `[0-9.]`. -/
def numChar (c : Char) : Bool := c.isDigit || c == '.'

/-- Maximal runs of `[0-9.]` characters, worker with reversed accumulator. -/
def numRuns : List Char → List Char → List (List Char)
  | [], acc => if acc.isEmpty then [] else [acc.reverse]
  | c :: cs, acc =>
    if numChar c then numRuns cs (c :: acc)
    else if acc.isEmpty then numRuns cs []
    else acc.reverse :: numRuns cs []

/-- Python `re.findall(r"[0-9.]+", s)`. -/
def pyFindNums (cs : List Char) : List (List Char) := numRuns cs []

/-- Numeric value of a digit list (most significant first). -/
def digitsVal (cs : List Char) : Nat := cs.foldl (fun a c => 10 * a + (c.toNat - 48)) 0

/-- Python `float(tok)` on a `[0-9.]+` token: fails (`ValueError`) when the
token has two or more dots or no digit at all. -/
def pyFloat (t : List Char) : Option PyNum :=
  if 2 ≤ t.countP (fun c => c == '.') then none
  else if !(t.any Char.isDigit) then none
  else
    let ip := t.takeWhile (fun c => c != '.')
    let fp := (t.dropWhile (fun c => c != '.')).drop 1
    some ⟨digitsVal (ip ++ fp), 10 ^ fp.length⟩

/-- Python `float(re.findall(r"[0-9.]+", s)[0])`; `none` models the
`IndexError` of an empty findall or the `ValueError` of `float`. -/
def firstNum (cs : List Char) : Option PyNum :=
  match pyFindNums cs with
  | [] => none
  | t :: _ => pyFloat t

/-- Embedding of `is_out_of_range(ref, value)`.  `true` means out-of-range
(the caller highlights the cell); `false` covers both in-range and every
indeterminate / exception path (the bare `return False` branches and the
`except` handler). -/
def is_out_of_range (ref value : String) : Bool :=
  if ref = "" ∨ value = "" ∨ hasDig value.data = false then false
  else
    match firstNum value.data with
    | none => false
    | some val =>
      if '-' ∈ ref.data then
        match splitCh '-' ref.data with
        | p0 :: p1 :: _ =>
          match firstNum p0, firstNum p1 with
          | some low, some high => numLt val low || numLt high val
          | _, _ => false
        | _ => false
      else if substrS "<=" ref then
        match firstNum ref.data with
        | some high => numLt high val
        | none => false
      else if substrS ">=" ref then
        match firstNum ref.data with
        | some low => numLt val low
        | none => false
      else if '<' ∈ ref.data then
        match firstNum ref.data with
        | some high => numLe high val
        | none => false
      else if '>' ∈ ref.data then
        match firstNum ref.data with
        | some low => numLe val low
        | none => false
      else false

/-! ## Reconciler (`merge_group`, labcorp_pdf_processing.py 79-93) -/

/-- One raw row of the concatenated worksheet frame, restricted to the fields
`merge_group` reads: the raw test name, the ordered date-column cells
(`none` = NaN from a worksheet that lacked the column), and the raw
reference-range string. -/
structure GroupRow where
  test : String
  cells : List (Option String)
  ref : String
deriving DecidableEq

/-- Per-column merge: `vals = [v for v in grp[col] if v != ""]` followed by
`vals[0] if vals else ""`.  A NaN cell (`none`) is not the empty string, so it
passes the filter. -/
def mergeCol (vals : List (Option String)) : Option String :=
  match vals.filter (fun v => v ≠ some "") with
  | [] => some ""
  | v :: _ => v

/-- Python `max(names, key=len)`: the first name of maximal length. -/
def longestRun : String → List String → String
  | best, [] => best
  | best, x :: xs => longestRun (if best.length < x.length then x else best) xs

/-- Embedding of `merge_group(grp)` on a non-empty group `r0 :: rest` whose
rows all carry `ncols` date cells (the concatenated frame aligns columns). -/
def merge_group (r0 : GroupRow) (rest : List GroupRow) (ncols : Nat) : GroupRow :=
  { test := longestRun r0.test (rest.map GroupRow.test)
    cells := (List.range ncols).map
      (fun j => mergeCol ((r0 :: rest).map (fun r => r.cells.getD j none)))
    ref := r0.ref }

/-! ## Multi-section state machine (`extract_table_data_scan`,
initial_pdf_processing.py 30-248)

The walk over one section's lines is embedded as an explicit state record and
a fueled recursion (`fuel = number of remaining lines` is always enough, since
every step consumes at least one line).  The section slice runs from the line
after a `Component` header to the next `Component` header; this matches the
Python index loop `while i < next_section_start` whenever no line both starts
with `"Component"` and matches the date pattern (true of all inputs below and
of the source's intended data). -/

/-- One flushed result row: `[current_component] + current_values + [current_range]`. -/
structure ScanRow where
  test : String
  vals : List String
  rng : Option String
deriving DecidableEq

/-- Mutable loop state of the section walk. -/
structure ScanState where
  comp : Option String
  vals : List String
  rng : Option String
  rows : List ScanRow
deriving DecidableEq

/-- Pad `current_values` with `""` up to the block's date-column count
(`while len(current_values) < len(date_headers): append("")`); never truncates. -/
def padVals (n : Nat) (vs : List String) : List String :=
  vs ++ List.replicate (n - vs.length) ""

/-- Python truthiness of `current_component` (a non-`None`, non-empty string). -/
def compTruthy : Option String → Bool
  | none => false
  | some s => s ≠ ""

/-- The flush guard and row emission shared by the new-label, `CO2` and (dead)
`Component` cases: `if current_component and len(current_values) > 0: ...`. -/
def flushPending (n : Nat) (st : ScanState) : ScanState :=
  match st.comp with
  | some c =>
    if c ≠ "" ∧ st.vals ≠ [] then
      { comp := st.comp, vals := [], rng := none
        rows := st.rows ++ [⟨c, padVals n st.vals, st.rng⟩] }
    else st
  | none => st

/-- Flush (if pending) and start a new current test with label `l`. -/
def startNew (n : Nat) (l : String) (st : ScanState) : ScanState :=
  { flushPending n st with comp := some l, vals := [], rng := none }

/-- The `Normal Range:` continuation loop (lines 173-181): keep absorbing
following lines into the range text until a `Component` header or a
digit-bearing line other than the bare unit `m2`; lines that themselves start
with `Normal Range:` are skipped without being appended.  Returns the final
range text and the unconsumed lines. -/
def absorbRange : List String → String → String × List String
  | [], rt => (rt, [])
  | nl :: rest, rt =>
    if startsW "Component" nl = true ∨ (hasDig nl.data = true ∧ toLowerS nl ≠ "m2") then
      (rt, nl :: rest)
    else
      absorbRange rest (if startsW "Normal Range:" nl = true then rt else rt ++ " " ++ nl)

/-- Python `line.replace("Normal Range:", "")` (replace every occurrence),
fueled left-to-right scan. -/
def removeNRF : Nat → List Char → List Char
  | 0, cs => cs
  | _ + 1, [] => []
  | fuel + 1, c :: cs =>
    if listPre "Normal Range:".data (c :: cs) then
      removeNRF fuel (List.drop "Normal Range:".data.length (c :: cs))
    else c :: removeNRF fuel cs

/-- `line.replace("Normal Range:", "").strip()`. -/
def stripNRLabel (l : String) : String :=
  String.mk (trimL (removeNRF l.data.length l.data))

/-- Python truthiness test `if current_range and line.strip() in current_range`. -/
def rngHit (rng : Option String) (l : String) : Bool :=
  match rng with
  | some r => r ≠ "" && substrS l r
  | none => false

/-- One section's walk (the `while i < next_section_start` loop, lines
112-227).  `n` is the block's date-column count.  Note there is no flush when
the lines run out: the Python loop ends without emitting the pending test
(the `Component` case that would flush is unreachable, since the loop bound
stops before the next `Component` line). -/
def scanWalk (n : Nat) : Nat → List String → ScanState → ScanState
  | _, [], st => st
  | 0, _ :: _, st => st
  | fuel + 1, l :: rest, st =>
    if startsW "Component" l = true then
      -- CASE 1 (dead inside a section): flush, set the component to this line
      scanWalk n fuel rest { flushPending n st with comp := some l }
    else if dateSearchS l = true then
      -- CASE 2: date header line, skip
      scanWalk n fuel rest st
    else if startsW "Normal Range:" l = false ∧ hasDig l.data = false then
      -- CASE 3: a new component name (no digits, not a range)
      if toLowerS l = "m2" then scanWalk n fuel rest st
      else scanWalk n fuel rest (startNew n l st)
    else if startsW "Normal Range:" l = true then
      -- CASE 4: reference range, possibly spanning lines
      let p := absorbRange rest (stripNRLabel l)
      scanWalk n fuel p.2 { st with rng := some p.1 }
    else
      -- CASE 5: a digit-bearing line
      if toLowerS l = "m2" then scanWalk n fuel rest st
      else if rngHit st.rng l = true then scanWalk n fuel rest st
      else if toUpperS l = "CO2" then scanWalk n fuel rest (startNew n l st)
      else scanWalk n fuel rest { st with vals := st.vals ++ [l] }

/-- `[line.strip() for line in text.split('\n') if line.strip()]`. -/
def preprocessLines (text : String) : List String :=
  ((splitCh '\n' text.data).map trimL).filterMap
    (fun cs => if cs.isEmpty then none else some (String.mk cs))

/-- The lines strictly between each `Component` header and the next one
(or the end of the document), one slice per header, in order. -/
def splitAfterComponents : List String → List (List String)
  | [] => []
  | l :: rest =>
    if startsW "Component" l = true then
      (rest.takeWhile (fun x => !(startsW "Component" x))) :: splitAfterComponents rest
    else splitAfterComponents rest

/-- Per-section processing: consume the consecutive date-header lines, skip the
section when there are none (`continue`), else run the walk on the remaining
lines.  Returns the section's date headers and its emitted rows. -/
def sectionResults (lines : List String) : List (List String × List ScanRow) :=
  (splitAfterComponents lines).filterMap (fun sec =>
    let dh := sec.takeWhile dateSearchS
    if dh.isEmpty then none
    else
      let rest := sec.dropWhile dateSearchS
      some (dh, (scanWalk dh.length rest.length rest ⟨none, [], none, []⟩).rows))

/-- Embedding of `extract_table_data_scan(text)`.  Returns the data rows and
the sorted deduplicated date headers, or `none` for the `return None, None`
paths: no `Component` header at all, or the `pd.DataFrame(all_data_rows,
columns=...)` call raising because the widest row does not have exactly one
cell per column (pandas pads narrower rows but requires
`len(columns) == max row width`). -/
def extract_table_data_scan (text : String) : Option (List ScanRow × List String) :=
  let lines := preprocessLines text
  if lines.all (fun l => !(startsW "Component" l)) then none
  else
    let secs := sectionResults lines
    let allRows := (secs.map (fun p => p.2)).flatten
    let allDates :=
      List.insertionSort (fun a b : String => chLe a.data b.data = true)
        (dedupL ((secs.map (fun p => p.1)).flatten))
    if allRows.isEmpty ∨
        (allRows.map (fun r => 2 + r.vals.length)).foldl Nat.max 0 = 2 + allDates.length then
      some (allRows, allDates)
    else none

/-! ## Regex-block extractor (`extract_table_data_other`,
initial_pdf_processing.py 250-281)

The source applies `result_pattern = (?P<Test>[A-Za-z0-9 \(\)\[\]\-\/]+)\n
Normal Range:\s*(?P<Range>[><=0-9.\-–\s]+[a-zA-Z/%²μ]+)\n
(?P<Value>[><=0-9. \s]+[a-zA-Z/%²μ]+)` with `finditer`.  Because every pair of
adjacent sub-patterns has disjoint character classes except `\s* ⊆ Range`'s
first class, Python's greedy backtracking is equivalent to the deterministic
maximal-run scan implemented here (the only backtracking that can succeed is
`\s*` yielding back exactly one character to `Range`'s first `+`-class when the
latter would otherwise be empty). -/

/-- Character class of the `Test` group: `[A-Za-z0-9 \(\)\[\]\-\/]`. -/
def classT (c : Char) : Bool :=
  c.isAlpha || c.isDigit || c == ' ' || c == '(' || c == ')' ||
  c == '[' || c == ']' || c == '-' || c == '/'

/-- First character class of the `Range` group: `[><=0-9.\-–\s]`. -/
def classR (c : Char) : Bool :=
  c == '>' || c == '<' || c == '=' || c.isDigit || c == '.' ||
  c == '-' || c == '–' || pyWS c

/-- Unit class closing `Range` and `Value`: `[a-zA-Z/%²μ]`. -/
def classU (c : Char) : Bool :=
  c.isAlpha || c == '/' || c == '%' || c == '²' || c == 'μ'

/-- First character class of the `Value` group: `[><=0-9. \s]`. -/
def classV (c : Char) : Bool :=
  c == '>' || c == '<' || c == '=' || c.isDigit || c == '.' || c == ' ' || pyWS c

/-- Try `result_pattern` anchored at the start of `cs`; on success return the
`Test`, `Range` and `Value` group texts and the remaining input after the
match. -/
def matchBlockAt (cs : List Char) : Option (List Char × List Char × List Char × List Char) :=
  let t := cs.takeWhile classT
  if t.isEmpty then none
  else
    let r1 := cs.drop t.length
    if listPre "\nNormal Range:".data r1 then
      let r2 := r1.drop "\nNormal Range:".data.length
      let w := r2.takeWhile pyWS
      let r3 := r2.drop w.length
      let b := r3.takeWhile classR
      -- the `\s*` / `[...]+` backtracking: if the maximal run after the
      -- whitespace is empty, the `+` reclaims the last whitespace character
      let rHead : List Char :=
        if b.isEmpty then
          match w.reverse with
          | x :: _ => [x]
          | [] => []
        else b
      if rHead.isEmpty then none
      else
        let r4 := r3.drop b.length
        let u := r4.takeWhile classU
        if u.isEmpty then none
        else
          match r4.drop u.length with
          | '\n' :: r5 =>
            let v := r5.takeWhile classV
            if v.isEmpty then none
            else
              let r6 := r5.drop v.length
              let u2 := r6.takeWhile classU
              if u2.isEmpty then none
              else some (t, rHead ++ u, v ++ u2, r6.drop u2.length)
          | _ => none
    else none

/-- `result_pattern.finditer(text)`: leftmost non-overlapping matches, trying
each start position in turn; fuel is the remaining input length plus one. -/
def findBlocks : Nat → List Char → List (List Char × List Char × List Char)
  | 0, _ => []
  | _ + 1, [] => []
  | fuel + 1, c :: cs =>
    match matchBlockAt (c :: cs) with
    | some (t, r, v, rest) => (t, r, v) :: findBlocks fuel rest
    | none => findBlocks fuel cs

/-- One extracted non-scan row: Test, Value and Reference Range (stripped),
keyed in the frame by the single extracted date. -/
structure OtherRow where
  test : String
  val : String
  rng : String
deriving DecidableEq

/-- Embedding of `extract_table_data_other(text)`: the single date is the
first `Mon D, YYYY` match anywhere in the text (else `"Unknown Date"`); one
row per regex match; `none` when no block matches (`return None, None`). -/
def extract_table_data_other (text : String) : Option (List OtherRow × List String) :=
  let cs := text.data
  let date :=
    match dateFindL cs with
    | some m => String.mk m
    | none => "Unknown Date"
  let blocks := findBlocks (cs.length + 1) cs
  let results := blocks.map
    (fun b => OtherRow.mk (String.mk (trimL b.1)) (String.mk (trimL b.2.2)) (String.mk (trimL b.2.1)))
  if results.isEmpty then none else some (results, [date])

/-! ## Per-file dispatch and the main loop (`process_pdf_file` / `main`,
initial_pdf_processing.py 283-324)

`main` wraps each file in `try/except`: a document whose processing raises, or
returns `None` / an empty date list, is logged and skipped, and the loop moves
on.  Text extraction itself (`fitz`) is the excluded external collaborator, so
a document is modelled as its already-extracted text plus its filename. -/

/-- The per-document extraction result appended to `all_data`. -/
inductive PdfData
  | scanD : List ScanRow → List String → PdfData
  | otherD : List OtherRow → List String → PdfData
deriving DecidableEq

/-- The `dates` component of a result. -/
def pdfDates : PdfData → List String
  | .scanD _ d => d
  | .otherD _ d => d

/-- Embedding of `process_pdf_file`: filenames starting (case-insensitively)
with `scan` use the multi-section strategy, all others the regex strategy. -/
def process_pdf_file (filename text : String) : Option PdfData :=
  if startsW "scan" (toLowerS filename) then
    (extract_table_data_scan text).map (fun p => .scanD p.1 p.2)
  else
    (extract_table_data_other text).map (fun p => .otherD p.1 p.2)

/-- The body of `main`'s per-file loop: `none` when the document raised or
produced no table (`df is None or not dates`), else the kept result. -/
def docKeep (d : String × String) : Option PdfData :=
  match process_pdf_file d.1 d.2 with
  | some pd => if pdfDates pd = [] then none else some pd
  | none => none

/-- `main`'s collection loop over all files: failures contribute nothing and
never stop the iteration. -/
def mainCollect (docs : List (String × String)) : List PdfData :=
  docs.filterMap docKeep

/-! ## Final column assembly (`main`, initial_pdf_processing.py 339-369, and
`reformat_date`, labcorp_pdf_processing.py 20-48) -/

/-- Month lookup worker for the date parser. -/
def monthLookup : List (List Char) → Nat → List Char → Option (Nat × List Char)
  | [], _, _ => none
  | m :: ms, k, cs => if listPre m cs then some (k, cs.drop 3) else monthLookup ms (k + 1) cs

/-- Parse `Mon D, YYYY` completely (no trailing text); returns (year, month, day). -/
def parseMonthForm (cs : List Char) : Option (Nat × Nat × Nat) :=
  match monthLookup monthsL 1 cs with
  | none => none
  | some (mo, r1) =>
    let w1 := r1.takeWhile pyWS
    if w1.isEmpty then none
    else
      let r2 := r1.drop w1.length
      let drun := r2.takeWhile Char.isDigit
      if drun.length = 1 ∨ drun.length = 2 then
        match r2.drop drun.length with
        | ',' :: r3 =>
          let w2 := r3.takeWhile pyWS
          if w2.isEmpty then none
          else
            let r4 := r3.drop w2.length
            let y := r4.takeWhile Char.isDigit
            if y.length = 4 ∧ (r4.drop 4).isEmpty then
              let d := digitsVal drun
              if 1 ≤ d ∧ d ≤ 31 then some (digitsVal y, mo, d) else none
            else none
        | _ => none
      else none

/-- Parse `M/D/YYYY` (one- or two-digit month and day) completely. -/
def parseSlashForm (cs : List Char) : Option (Nat × Nat × Nat) :=
  let mrun := cs.takeWhile Char.isDigit
  if mrun.length = 1 ∨ mrun.length = 2 then
    match cs.drop mrun.length with
    | '/' :: r1 =>
      let drun := r1.takeWhile Char.isDigit
      if drun.length = 1 ∨ drun.length = 2 then
        match r1.drop drun.length with
        | '/' :: r2 =>
          let y := r2.takeWhile Char.isDigit
          if y.length = 4 ∧ (r2.drop 4).isEmpty then
            let m := digitsVal mrun
            let d := digitsVal drun
            if 1 ≤ m ∧ m ≤ 12 ∧ 1 ≤ d ∧ d ≤ 31 then some (digitsVal y, m, d) else none
          else none
        | _ => none
      else none
    | _ => none
  else none

/-- Model of the external `dateutil.parser.parse` restricted to the two date
shapes this pipeline produces (`Mon D, YYYY` date headers and `MM/DD/YYYY`
renderings); any other string makes `parse` raise, modelled as `none`. -/
def parseDateS (s : String) : Option (Nat × Nat × Nat) :=
  match parseMonthForm s.data with
  | some t => some t
  | none => parseSlashForm s.data

/-- One decimal digit character (argument taken mod 10). -/
def dChar (k : Nat) : Char :=
  match k % 10 with
  | 0 => '0' | 1 => '1' | 2 => '2' | 3 => '3' | 4 => '4'
  | 5 => '5' | 6 => '6' | 7 => '7' | 8 => '8' | _ => '9'

/-- Two-digit zero-padded rendering (`%m` / `%d`). -/
def pad2 (n : Nat) : List Char := [dChar (n / 10), dChar n]

/-- Four-digit zero-padded rendering (`%Y` for the years in scope). -/
def pad4 (n : Nat) : List Char := [dChar (n / 1000), dChar (n / 100), dChar (n / 10), dChar n]

/-- Embedding of `reformat_date`: `parse(date_str).strftime("%m/%d/%Y")`,
returning the input unchanged when parsing raises. -/
def reformat_date (s : String) : String :=
  match parseDateS s with
  | some (y, m, d) => String.mk (pad2 m ++ '/' :: pad2 d ++ '/' :: pad4 y)
  | none => s

/-- Shape test: exactly `dd/dd/dddd`. -/
def isMMDDYYYY (s : String) : Bool :=
  match s.data with
  | [a, b, '/', c, d, '/', e, f, g, h] =>
    a.isDigit && b.isDigit && c.isDigit && d.isDigit &&
    e.isDigit && f.isDigit && g.isDigit && h.isDigit
  | _ => false

/-- The chronological sort key of `main`: `parse(d)` with the sentinel
`parse("1/1/1900")` for `"Unknown Date"`; encoded as `y*10000 + m*100 + d`,
which orders exactly like the `datetime` triple.  (The 0 default is unused:
`assembleColumns` only sorts lists whose members parse or are the sentinel.) -/
def dateKey (s : String) : Nat :=
  if s = "Unknown Date" then 1900 * 10000 + 1 * 100 + 1
  else
    match parseDateS s with
    | some (y, m, d) => y * 10000 + m * 100 + d
    | none => 0

/-- The sort relation passed to the model of Python `sorted`. -/
def dateRel (a b : String) : Prop := dateKey a ≤ dateKey b

instance : DecidableRel dateRel := fun a b => Nat.decLe (dateKey a) (dateKey b)

/-- Embedding of the final column assembly in `main` (lines 342-369): sort the
collected date strings chronologically (Python `sorted` is modelled by the
stable `List.insertionSort`), reformat each to `mm/dd/yyyy` where parseable,
and order columns as Test, dates, Reference Range.  `none` models the uncaught
exception `sorted` raises when some collected date string neither parses nor
is the `"Unknown Date"` sentinel. -/
def assembleColumns (all_dates : List String) : Option (List String) :=
  if ∀ d ∈ all_dates, d = "Unknown Date" ∨ (parseDateS d).isSome then
    some ("Test" :: (List.insertionSort dateRel all_dates).map reformat_date
      ++ ["Reference Range"])
  else none

/-! ## Helper lemmas -/

theorem padVals_length_ge (n : Nat) (vs : List String) : n ≤ (padVals n vs).length := by
  simp [padVals]
  omega

theorem flushPending_pres (n : Nat) (st : ScanState)
    (h : ∀ r ∈ st.rows, n ≤ r.vals.length) :
    ∀ r ∈ (flushPending n st).rows, n ≤ r.vals.length := by
  intro r hr
  unfold flushPending at hr
  split at hr
  · split at hr
    · rcases List.mem_append.mp hr with hr | hr
      · exact h r hr
      · rw [List.mem_singleton] at hr
        subst hr
        exact padVals_length_ge n st.vals
    · exact h r hr
  · exact h r hr

theorem startNew_pres (n : Nat) (l : String) (st : ScanState)
    (h : ∀ r ∈ st.rows, n ≤ r.vals.length) :
    ∀ r ∈ (startNew n l st).rows, n ≤ r.vals.length := by
  intro r hr
  exact flushPending_pres n st h r hr

theorem scanWalk_rows (n : Nat) :
    ∀ (fuel : Nat) (ls : List String) (st : ScanState),
      (∀ r ∈ st.rows, n ≤ r.vals.length) →
      ∀ r ∈ (scanWalk n fuel ls st).rows, n ≤ r.vals.length := by
  intro fuel
  induction fuel with
  | zero =>
    intro ls st h
    cases ls with
    | nil => simpa [scanWalk] using h
    | cons l rest => simpa [scanWalk] using h
  | succ fuel ih =>
    intro ls st h
    cases ls with
    | nil => simpa [scanWalk] using h
    | cons l rest =>
      rw [scanWalk]
      split
      · exact ih rest _ (flushPending_pres n st h)
      · split
        · exact ih rest st h
        · split
          · split
            · exact ih rest st h
            · exact ih rest _ (startNew_pres n l st h)
          · split
            · exact ih _ _ h
            · split
              · exact ih rest st h
              · split
                · exact ih rest st h
                · split
                  · exact ih rest _ (startNew_pres n l st h)
                  · exact ih rest _ h

theorem noNum_runs (cs : List Char) (h : ∀ c ∈ cs, numChar c = false) :
    numRuns cs [] = [] := by
  induction cs with
  | nil => simp [numRuns]
  | cons c cs ih =>
    have hc : numChar c = false := h c (by simp)
    simp only [numRuns, hc, Bool.false_eq_true, if_false, List.isEmpty_nil, if_true]
    exact ih (fun a ha => h a (by simp [ha]))

theorem noNum_firstNum (cs : List Char) (h : ∀ c ∈ cs, numChar c = false) :
    firstNum cs = none := by
  simp [firstNum, pyFindNums, noNum_runs cs h]

theorem splitCh_sub (sep : Char) :
    ∀ (cs : List Char) (p : List Char), p ∈ splitCh sep cs → ∀ a ∈ p, a ∈ cs := by
  intro cs
  induction cs with
  | nil =>
    intro p hp a ha
    simp [splitCh] at hp
    subst hp
    simp at ha
  | cons c cs ih =>
    intro p hp a ha
    by_cases hc : c == sep
    · simp only [splitCh, hc, if_true] at hp
      rcases List.mem_cons.mp hp with h1 | h1
      · subst h1; simp at ha
      · exact List.mem_cons_of_mem c (ih p h1 a ha)
    · simp only [splitCh, hc, if_false] at hp
      rcases hq : splitCh sep cs with _ | ⟨q, qs⟩
      · rw [hq] at hp
        simp at hp
        subst hp
        simp at ha
        subst ha
        simp
      · rw [hq] at hp
        rcases List.mem_cons.mp hp with h1 | h1
        · subst h1
          rcases List.mem_cons.mp ha with h2 | h2
          · subst h2; simp
          · exact List.mem_cons_of_mem c (ih q (by rw [hq]; simp) a h2)
        · exact List.mem_cons_of_mem c (ih p (by rw [hq]; simp [h1]) a ha)

theorem dChar_isDigit (k : Nat) : (dChar k).isDigit = true := by
  unfold dChar
  have h : k % 10 < 10 := Nat.mod_lt _ (by decide)
  generalize k % 10 = j at h ⊢
  interval_cases j <;> rfl

theorem reformat_shape (s : String) (y m d : Nat) (h : parseDateS s = some (y, m, d)) :
    isMMDDYYYY (reformat_date s) = true := by
  simp [reformat_date, h, isMMDDYYYY, pad2, pad4, dChar_isDigit]

/-! ## Claim theorems -/

/-- C1.  The multi-section state machine does NOT flush the pending test when
a block ends: on `Component / Jan 3, 2025 / Sodium / 140 mmol/L` the document
ends with `Sodium` holding one value, yet the extractor emits zero rows; the
same document with a following label `Zinc` shows the pending test was real
and only a subsequent Label line flushes it.  This contradicts the spec's
end-of-block flush (and the source's own unreachable `Component` flush case),
so the claim is recorded as a code bug, evaluated here at the failing input. -/
theorem scan_last_test_dropped :
    extract_table_data_scan "Component\nJan 3, 2025\nSodium\n140 mmol/L" =
      some ([], ["Jan 3, 2025"]) ∧
    extract_table_data_scan "Component\nJan 3, 2025\nSodium\n140 mmol/L\nZinc" =
      some ([⟨"Sodium", ["140 mmol/L"], none⟩], ["Jan 3, 2025"]) := by
  decide

/-- C2 counterexample.  A reference range wrapped as `Normal Range: 21 -`
followed by `31 mmol/L` is NOT merged: the stored range is `"21 -"` and the
continuation line is recorded as a value of the test, contradicting the
claimed single range string `"21 - 31 mmol/L"`. -/
theorem range_wrap_cex :
    extract_table_data_scan
        "Component\nJan 3, 2025\nBicarbonate\nNormal Range: 21 -\n31 mmol/L\nZinc" =
      some ([⟨"Bicarbonate", ["31 mmol/L"], some "21 -"⟩], ["Jan 3, 2025"]) := by
  decide

/-- C2 amended.  The range-absorption loop stops at the first following line
that contains a digit (other than the bare unit `m2`) or starts a new
`Component` section; it absorbs a digit-free, non-`Normal Range:` line by
appending it to the range text.  Hence a digit-bearing continuation such as
`31 mmol/L` is never absorbed and instead becomes a value. -/
theorem range_wrap_amended :
    (∀ (rt : String) (rest : List String) (nl : String),
        hasDig nl.data = true → toLowerS nl ≠ "m2" →
        absorbRange (nl :: rest) rt = (rt, nl :: rest)) ∧
    (∀ (rt : String) (rest : List String) (nl : String),
        startsW "Component" nl = false → hasDig nl.data = false →
        startsW "Normal Range:" nl = false →
        absorbRange (nl :: rest) rt = absorbRange rest (rt ++ " " ++ nl)) := by
  constructor
  · intro rt rest nl h1 h2
    simp [absorbRange, h1, h2]
  · intro rt rest nl h1 h2 h3
    simp [absorbRange, h1, h2, h3]

/-- C2 witness: the amended stop rule applied to the concrete continuation
line `31 mmol/L`. -/
theorem range_wrap_amended_witness :
    absorbRange ["31 mmol/L", "Zinc"] "21 -" = ("21 -", ["31 mmol/L", "Zinc"]) :=
  range_wrap_amended.1 "21 -" ["Zinc"] "31 mmol/L" (by decide) (by decide)

/-- C3 counterexample.  No cap or truncation exists: in a two-section
document whose first block has two date headers and whose test `Albumin`
accumulates three numeric lines, the over-long row is flushed with all three
values and — because the widest row matches the document-wide column count of
`2 + 3` union dates — survives DataFrame construction into the extractor's
output, exceeding its own block's date-column count of two. -/
theorem scan_values_exceed_cex :
    extract_table_data_scan
        "Component\nJan 3, 2025\nFeb 4, 2025\nAlbumin\n1 u\n2 u\n3 u\nZinc\nComponent\nMar 6, 2025\nCalcium\n5 u\nZinc" =
      some ([⟨"Albumin", ["1 u", "2 u", "3 u"], none⟩, ⟨"Calcium", ["5 u"], none⟩],
        ["Feb 4, 2025", "Jan 3, 2025", "Mar 6, 2025"]) ∧
    (sectionResults (preprocessLines
        "Component\nJan 3, 2025\nFeb 4, 2025\nAlbumin\n1 u\n2 u\n3 u\nZinc\nComponent\nMar 6, 2025\nCalcium\n5 u\nZinc")).map
      (fun p => (p.1.length, p.2.map (fun r => r.vals.length))) = [(2, [3]), (1, [1])] := by
  decide

/-- C3 amended.  Every completed row of a section has AT LEAST the block's
date-column count of values: missing trailing values are padded with empty
strings up to exactly that count, but a row that accumulated more numeric
lines than date columns keeps all of them (the count can be exceeded). -/
theorem scan_row_padding :
    (∀ (lines dh : List String) (rows : List ScanRow),
        (dh, rows) ∈ sectionResults lines → ∀ r ∈ rows, dh.length ≤ r.vals.length) ∧
    (∀ (n : Nat) (vs : List String), vs.length ≤ n →
        (padVals n vs).length = n ∧ ∀ x ∈ (padVals n vs).drop vs.length, x = "") := by
  constructor
  · intro lines dh rows hmem
    simp only [sectionResults, List.mem_filterMap] at hmem
    rcases hmem with ⟨sec, _, heq⟩
    split at heq
    · exact absurd heq (by simp)
    · rw [Option.some_inj] at heq
      have hdh : dh = sec.takeWhile dateSearchS := by
        have := congrArg Prod.fst heq
        simpa using this.symm
      have hrows : rows = (scanWalk (sec.takeWhile dateSearchS).length
          (sec.dropWhile dateSearchS).length (sec.dropWhile dateSearchS)
          ⟨none, [], none, []⟩).rows := by
        have := congrArg Prod.snd heq
        simpa using this.symm
      rw [hdh, hrows]
      exact scanWalk_rows _ _ _ _ (by simp)
  · intro n vs h
    constructor
    · simp [padVals]
      omega
    · intro x hx
      rw [padVals, List.drop_left] at hx
      exact List.eq_of_mem_replicate hx

/-- C3 witness: the padding lower bound applied to a concrete flushed row. -/
theorem scan_row_padding_witness :
    (["Jan 3, 2025"], [(⟨"Sodium", ["140 mmol/L"], none⟩ : ScanRow)]) ∈
      sectionResults (preprocessLines "Component\nJan 3, 2025\nSodium\n140 mmol/L\nZinc") ∧
    (["Jan 3, 2025"] : List String).length ≤
      (⟨"Sodium", ["140 mmol/L"], none⟩ : ScanRow).vals.length :=
  ⟨by decide,
   scan_row_padding.1
     (preprocessLines "Component\nJan 3, 2025\nSodium\n140 mmol/L\nZinc")
     ["Jan 3, 2025"] [⟨"Sodium", ["140 mmol/L"], none⟩]
     (by decide) _ (by decide)⟩

/-- C4.  Branch-by-branch characterization of the range classifier, with the
branches tested in the source's `elif` order (dash before `<=` before `>=`
before `<` before `>`), plus the three concrete examples from the spec:
the measured quantity is the first decimal number of the value, and
out-of-range holds exactly under the claimed comparisons. -/
theorem range_classifier_branches :
    (∀ (ref value : String) (val low high : PyNum) (p0 p1 : List Char) (ps : List (List Char)),
        ref ≠ "" → value ≠ "" → hasDig value.data = true →
        firstNum value.data = some val →
        '-' ∈ ref.data →
        splitCh '-' ref.data = p0 :: p1 :: ps →
        firstNum p0 = some low → firstNum p1 = some high →
        is_out_of_range ref value = (numLt val low || numLt high val)) ∧
    (∀ (ref value : String) (val bound : PyNum),
        ref ≠ "" → value ≠ "" → hasDig value.data = true →
        firstNum value.data = some val →
        '-' ∉ ref.data → substrS "<=" ref = true →
        firstNum ref.data = some bound →
        is_out_of_range ref value = numLt bound val) ∧
    (∀ (ref value : String) (val bound : PyNum),
        ref ≠ "" → value ≠ "" → hasDig value.data = true →
        firstNum value.data = some val →
        '-' ∉ ref.data → substrS "<=" ref = false → substrS ">=" ref = true →
        firstNum ref.data = some bound →
        is_out_of_range ref value = numLt val bound) ∧
    (∀ (ref value : String) (val bound : PyNum),
        ref ≠ "" → value ≠ "" → hasDig value.data = true →
        firstNum value.data = some val →
        '-' ∉ ref.data → substrS "<=" ref = false → substrS ">=" ref = false →
        '<' ∈ ref.data →
        firstNum ref.data = some bound →
        is_out_of_range ref value = numLe bound val) ∧
    (∀ (ref value : String) (val bound : PyNum),
        ref ≠ "" → value ≠ "" → hasDig value.data = true →
        firstNum value.data = some val →
        '-' ∉ ref.data → substrS "<=" ref = false → substrS ">=" ref = false →
        '<' ∉ ref.data → '>' ∈ ref.data →
        firstNum ref.data = some bound →
        is_out_of_range ref value = numLe val bound) ∧
    is_out_of_range "70-100 mg/dL" "65 mg/dL" = true ∧
    is_out_of_range "70-100 mg/dL" "85 mg/dL" = false ∧
    firstNum "85 mg/dL".data = some ⟨85, 1⟩ ∧
    is_out_of_range "<=5.0" "6.1" = true := by
  refine ⟨?_, ?_, ?_, ?_, ?_, by decide, by decide, by decide, by decide⟩
  · intro ref value val low high p0 p1 ps h1 h2 h3 h4 h5 h6 h7 h8
    simp [is_out_of_range, h1, h2, h3, h4, h5, h6, h7, h8]
  · intro ref value val bound h1 h2 h3 h4 h5 h6 h7
    simp [is_out_of_range, h1, h2, h3, h4, h5, h6, h7]
  · intro ref value val bound h1 h2 h3 h4 h5 h6 h7 h8
    simp [is_out_of_range, h1, h2, h3, h4, h5, h6, h7, h8]
  · intro ref value val bound h1 h2 h3 h4 h5 h6 h7 h8 h9
    simp [is_out_of_range, h1, h2, h3, h4, h5, h6, h7, h8, h9]
  · intro ref value val bound h1 h2 h3 h4 h5 h6 h7 h8 h9 h10
    simp [is_out_of_range, h1, h2, h3, h4, h5, h6, h7, h8, h9, h10]

/-- C4 witness: the dash branch at the concrete glucose range. -/
theorem range_classifier_branches_witness :
    is_out_of_range "70-100" "65" = (numLt ⟨65, 1⟩ ⟨70, 1⟩ || numLt ⟨100, 1⟩ ⟨65, 1⟩) :=
  range_classifier_branches.1 "70-100" "65" ⟨65, 1⟩ ⟨70, 1⟩ ⟨100, 1⟩
    "70".data "100".data []
    (by decide) (by decide) (by decide) (by decide) (by decide) (by decide)
    (by decide) (by decide)

/-- C5.  The classifier is a total function (exceptions are modelled by the
`none`/`false` paths) and returns the non-flagging `false` (indeterminate)
whenever either string is empty, the value contains no digit, the value's
first number token cannot be parsed, or the range contains no digit-or-dot
character at all; including the spec's two concrete indeterminate examples. -/
theorem range_classifier_indeterminate :
    (∀ (ref value : String),
        ref = "" ∨ value = "" ∨ hasDig value.data = false ∨
          firstNum value.data = none ∨ ref.data.all (fun c => !numChar c) = true →
        is_out_of_range ref value = false) ∧
    is_out_of_range "" "120" = false ∧
    is_out_of_range ">=40" "abc" = false := by
  refine ⟨?_, by decide, by decide⟩
  intro ref value h
  rcases h with h | h | h | h | h
  · simp [is_out_of_range, h]
  · simp [is_out_of_range, h]
  · simp [is_out_of_range, h]
  · simp only [is_out_of_range, h]
    split
    · rfl
    · rfl
  · have hall : ∀ c ∈ ref.data, numChar c = false := by
      intro c hc
      have := List.all_eq_true.mp h c hc
      simpa using this
    have hnone : firstNum ref.data = none := noNum_firstNum ref.data hall
    simp only [is_out_of_range]
    split
    · rfl
    · cases hv : firstNum value.data with
      | none => rfl
      | some val =>
        by_cases hd : '-' ∈ ref.data
        · simp only [if_pos hd]
          rcases hsp : splitCh '-' ref.data with _ | ⟨p0, rest0⟩
          · rfl
          · rcases rest0 with _ | ⟨p1, rest1⟩
            · rfl
            · have h0 : firstNum p0 = none := by
                refine noNum_firstNum p0 (fun a ha => hall a ?_)
                exact splitCh_sub '-' ref.data p0 (by rw [hsp]; simp) a ha
              simp [h0]
        · simp only [if_neg hd, hnone]
          split_ifs <;> rfl

/-- C5 witness: a value with no digits is indeterminate via the general rule. -/
theorem range_classifier_indeterminate_witness :
    is_out_of_range ">=40" "xyz" = false :=
  range_classifier_indeterminate.1 ">=40" "xyz"
    (Or.inr (Or.inr (Or.inl (by decide))))

/-- C6 counterexample.  When the first row of a group has a missing (NaN)
cell for a date and a later row supplies a real value, the merged cell is the
missing cell, not the first non-empty value `"140 mmol/L"` the claim
requires: only the exact empty string is filtered out. -/
theorem merge_first_value_cex :
    (merge_group ⟨"Sodium", [none], "136 - 145 mmol/L"⟩
        [⟨"Sodium", [some "140 mmol/L"], "136 - 145 mmol/L"⟩] 1).cells = [none] := by
  decide

/-- C6 amended.  Per date the merge takes the first cell different from the
exact empty string, in stable input order; in particular whenever every
earlier cell in the column is the present empty string (no NaN precedes), the
first non-empty value wins.  The merge is a total function, so conflicting
values are resolved by this precedence and never reported as an error. -/
theorem merge_first_nonempty_amended :
    ∀ (pre : List (Option String)) (v : String) (post : List (Option String)),
      (∀ c ∈ pre, c = some "") → v ≠ "" →
      mergeCol (pre ++ some v :: post) = some v := by
  intro pre v post hpre hv
  induction pre with
  | nil => simp [mergeCol, hv]
  | cons c cs ih =>
    have hc : c = some "" := hpre c (by simp)
    subst hc
    rw [List.cons_append]
    have hskip : mergeCol (some "" :: (cs ++ some v :: post)) =
        mergeCol (cs ++ some v :: post) := by
      simp [mergeCol]
    rw [hskip]
    exact ih (fun c hc => hpre c (List.mem_cons_of_mem _ hc))

/-- C6 witness: the first non-empty value wins over a later conflicting one. -/
theorem merge_first_nonempty_amended_witness :
    mergeCol [some "", some "140", some "150"] = some "140" :=
  merge_first_nonempty_amended [some ""] "140" [some "150"] (by simp) (by decide)

/-- C7 counterexample.  The non-scan extractor produces a row from a text
that contains no Section-Header (`Component`) line at all and no multi-space
delimited header row, so the claimed locate-header/split/discard procedure is
not what runs: extraction is driven by the block regex. -/
theorem other_extractor_cex :
    extract_table_data_other "Glucose\nNormal Range: 70 - 99 mg/dL\n85 mg/dL" =
      some ([⟨"Glucose", "85 mg/dL", "70 - 99 mg/dL"⟩], ["Unknown Date"]) ∧
    (preprocessLines "Glucose\nNormal Range: 70 - 99 mg/dL\n85 mg/dL").all
      (fun l => !(startsW "Component" l)) = true := by
  decide

/-- C7 amended.  For non-scan documents the extractor matches blocks of
`test-name line / Normal Range: ... / value line` with a multiline regex,
keys every row by the first `Mon D, YYYY` date found anywhere in the text
(`"Unknown Date"` when there is none), and yields nothing when no block
matches. -/
theorem other_extractor_regex :
    extract_table_data_other
        "Collected: Mar 31, 2025\nGlucose\nNormal Range: 70 - 99 mg/dL\n85 mg/dL" =
      some ([⟨"Glucose", "85 mg/dL", "70 - 99 mg/dL"⟩], ["Mar 31, 2025"]) ∧
    extract_table_data_other "no labs here" = none := by
  decide

/-- C8.  A document whose processing fails (its extractor raised, returned
`None`, or produced an empty date list — all the paths `docKeep` maps to
`none`) contributes zero rows, and the collection over the remaining
documents is exactly as if the failing document were absent: one document's
failure never aborts the run. -/
theorem per_document_failure_isolated :
    ∀ (pre post : List (String × String)) (d : String × String),
      docKeep d = none →
      mainCollect (pre ++ d :: post) = mainCollect pre ++ mainCollect post := by
  intro pre post d h
  simp [mainCollect, List.filterMap_append, List.filterMap_cons, h]

/-- C8 witness: a scan-named document with no `Component` header is skipped
between two successfully processed documents. -/
theorem per_document_failure_isolated_witness :
    mainCollect [("report1.pdf", "Glucose\nNormal Range: 70 - 99 mg/dL\n85 mg/dL"),
      ("Scan_bad.pdf", "nothing useful"),
      ("report2.pdf", "Sodium\nNormal Range: 136 - 145 mmol/L\n140 mmol/L")] =
    mainCollect [("report1.pdf", "Glucose\nNormal Range: 70 - 99 mg/dL\n85 mg/dL")] ++
    mainCollect [("report2.pdf", "Sodium\nNormal Range: 136 - 145 mmol/L\n140 mmol/L")] :=
  per_document_failure_isolated
    [("report1.pdf", "Glucose\nNormal Range: 70 - 99 mg/dL\n85 mg/dL")]
    [("report2.pdf", "Sodium\nNormal Range: 136 - 145 mmol/L\n140 mmol/L")]
    ("Scan_bad.pdf", "nothing useful") (by decide)

/-- C9 counterexample.  A collected date string that `dateutil` cannot parse
— the pipeline's own `"Unknown Date"` placeholder, produced for every
non-scan document without a detected date — survives into the final column
list unchanged, so not every date column header is rendered `mm/dd/yyyy`. -/
theorem assemble_columns_cex :
    assembleColumns ["Unknown Date"] = some ["Test", "Unknown Date", "Reference Range"] ∧
    isMMDDYYYY "Unknown Date" = false ∧
    reformat_date "Unknown Date" = "Unknown Date" := by
  decide

/-- C9 amended.  For every collected date list whose members parse or are the
`"Unknown Date"` placeholder, the final columns are Test, then the date
columns sorted ascending by the parsed calendar-date key — with
`"Unknown Date"` keyed as the sentinel date 1/1/1900 and ordered by that key
among the real dates (so it precedes later dates but follows earlier ones) —
then Reference Range; every header whose date parses is rendered
`mm/dd/yyyy`, while the unparseable placeholder is left unchanged.  The two
concrete conjuncts show the sentinel key placing `"Unknown Date"` after an
1850 header and before a 2025 header. -/
theorem assemble_columns_amended :
    (∀ (ds : List String),
      (∀ d ∈ ds, d = "Unknown Date" ∨ (parseDateS d).isSome) →
      assembleColumns ds =
          some ("Test" :: (List.insertionSort dateRel ds).map reformat_date
            ++ ["Reference Range"]) ∧
        List.Pairwise (fun a b => dateKey a ≤ dateKey b) (List.insertionSort dateRel ds) ∧
        ∀ d ∈ ds, d = "Unknown Date" ∨ isMMDDYYYY (reformat_date d) = true) ∧
    dateKey "Unknown Date" = 1900 * 10000 + 1 * 100 + 1 ∧
    assembleColumns ["Jan 1, 1850", "Unknown Date"] =
      some ["Test", "01/01/1850", "Unknown Date", "Reference Range"] ∧
    assembleColumns ["Unknown Date", "Mar 31, 2025"] =
      some ["Test", "Unknown Date", "03/31/2025", "Reference Range"] := by
  refine ⟨?_, by decide, by decide, by decide⟩
  intro ds h
  refine ⟨?_, ?_, ?_⟩
  · simp only [assembleColumns]
    rw [if_pos h]
  · haveI : IsTotal String dateRel := ⟨fun a b => Nat.le_total (dateKey a) (dateKey b)⟩
    haveI : IsTrans String dateRel := ⟨fun a b c => Nat.le_trans⟩
    exact List.sorted_insertionSort dateRel ds
  · intro d hd
    rcases h d hd with h1 | h1
    · exact Or.inl h1
    · rcases Option.isSome_iff_exists.mp h1 with ⟨t, ht⟩
      obtain ⟨y, m, dd⟩ := t
      exact Or.inr (reformat_shape d y m dd ht)

/-- C9 witness: a mixed list with the `"Unknown Date"` placeholder between
two month-name headers is assembled with the placeholder ordered by its
1/1/1900 sentinel key and left un-reformatted. -/
theorem assemble_columns_amended_witness :
    assembleColumns ["Mar 31, 2025", "Unknown Date", "Jan 3, 2025"] =
      some ["Test", "Unknown Date", "01/03/2025", "03/31/2025", "Reference Range"] :=
  ((assemble_columns_amended.1 ["Mar 31, 2025", "Unknown Date", "Jan 3, 2025"]
      (by decide)).1).trans (by decide)

/-- C10.  Only the exact empty string is filtered out in the per-date merge:
a missing (NaN) cell passes the non-empty filter and, placed first, wins even
when a later row of the group supplies a real value for the same date. -/
theorem nan_passes_empty_filter :
    (∀ (cs : List (Option String)), mergeCol (none :: cs) = none) ∧
    (∀ (cs : List (Option String)), mergeCol (some "" :: cs) = mergeCol cs) ∧
    (∀ (v : String),
      (merge_group ⟨"Iron", [none], "50 - 150"⟩ [⟨"Iron", [some v], "50 - 150"⟩] 1).cells =
        [none]) := by
  refine ⟨?_, ?_, ?_⟩
  · intro cs
    simp [mergeCol]
  · intro cs
    simp [mergeCol]
  · intro v
    simp [merge_group, mergeCol, List.range_succ]
